import Mathlib

/-!
Verification of the DirSoul memory engine (Rust sources under `src/rust/src/`)
against its natural-language specification.

Shallow embedding conventions:
* machine integers `i32`/`i64` are modelled as `ℤ`, `u64` as `ℕ`;
* `f64` values are modelled as `ℚ` where the code only compares and divides
  (confidences, ratios, percentages), and as `EReal` where the code takes
  logarithms (so that IEEE `ln(0) = -inf` is representable);
* timestamps (`chrono::DateTime<Utc>`) are modelled as `ℤ` seconds since the
  epoch; a `chrono::Duration`'s `num_days()` truncates toward zero;
* Rust `String`s that undergo per-character processing are modelled as their
  sequence of Unicode scalar values, `List ℕ`; strings that are only compared
  for equality stay `String`.
-/

namespace Dirsoul

/-! ## Character/string utilities shared by the embeddings

`strCodes` turns a Lean string literal into the list of Unicode scalar
values that models the corresponding Rust `&str`. -/

def strCodes (s : String) : List ℕ :=
  s.data.map Char.toNat

/-- The Unicode `White_Space` code points, as used by Rust `char::is_whitespace`
(and hence by `str::trim`). -/
def isRustWhitespace (c : ℕ) : Bool :=
  decide ((9 ≤ c ∧ c ≤ 13) ∨ c = 32 ∨ c = 133 ∨ c = 160 ∨ c = 5760 ∨
    (8192 ≤ c ∧ c ≤ 8202) ∨ c = 8232 ∨ c = 8233 ∨ c = 8239 ∨
    c = 8287 ∨ c = 12288)

/-- Rust `str::trim`: drop leading and trailing whitespace characters. -/
def trimL (s : List ℕ) : List ℕ :=
  List.rdropWhile isRustWhitespace (s.dropWhile isRustWhitespace)

/-- Rust `char`/`str` lowercasing restricted to its ASCII action
(`'A'..='Z'` map to `'a'..='z'`); the sources only lowercase ASCII and
Chinese text, and Chinese has no case. -/
def charLower (c : ℕ) : ℕ :=
  if 65 ≤ c ∧ c ≤ 90 then c + 32 else c

/-- Rust `char::to_uppercase` restricted to its ASCII action. -/
def charUpper (c : ℕ) : ℕ :=
  if 97 ≤ c ∧ c ≤ 122 then c - 32 else c

def lowerL (s : List ℕ) : List ℕ :=
  s.map charLower

/-- `pat` occurs at the start of `s` (Rust `str::starts_with`). -/
def isPrefixOfL : List ℕ → List ℕ → Bool
  | [], _ => true
  | _ :: _, [] => false
  | a :: as, b :: bs => a == b && isPrefixOfL as bs

/-- Rust `str::contains(pat)`: `pat` occurs as a contiguous substring of `s`. -/
def containsSub (s pat : List ℕ) : Bool :=
  isPrefixOfL pat s ||
    match s with
    | [] => false
    | _ :: t => containsSub t pat

/-- UTF-8 encoded length in bytes of one scalar value; Rust `str::len` is the
sum of these. -/
def utf8Len (c : ℕ) : ℕ :=
  if c < 128 then 1 else if c < 2048 then 2 else if c < 65536 then 3 else 4

/-- Rust `str::len` (byte length of the UTF-8 encoding). -/
def byteLen (s : List ℕ) : ℕ :=
  (s.map utf8Len).sum

/-! ## `cognitive.rs`: view status, promotion gate, counter-evidence -/

/-- `ViewStatus` from `cognitive.rs`. -/
inductive ViewStatus where
  | active
  | expired
  | promoted
  | rejected
deriving DecidableEq, Repr

namespace ViewStatus

/-- `ViewStatus::is_active`. -/
def is_active : ViewStatus → Bool
  | .active => true
  | _ => false

/-- `ViewStatus::can_be_promoted`. -/
def can_be_promoted : ViewStatus → Bool
  | .active => true
  | _ => false

/-- `impl From<String> for ViewStatus` (`cognitive.rs` lines 42–52):
the four canonical strings map to their statuses, anything else falls back
to `Active`. -/
def from_string (s : String) : ViewStatus :=
  if s = "active" then .active
  else if s = "expired" then .expired
  else if s = "promoted" then .promoted
  else if s = "rejected" then .rejected
  else .active

end ViewStatus

/-- `CognitiveView` from `cognitive.rs`.  The JSON blob fields
(`derived_from`, `tags`, `metadata`, `counter_evidence`) and the fields never
read by the embedded operations (`description`, `last_validated_at`,
`updated_at`, `promoted_to`, `source`, `view_type`) are omitted: no embedded
function inspects them. -/
structure CognitiveView where
  view_id : ℕ
  user_id : String
  hypothesis : String
  evidence_count : ℤ
  confidence : ℚ
  validation_count : ℤ
  status : String
  created_at : ℤ
  expires_at : ℤ
  counter_evidence_count : ℤ
deriving DecidableEq, Repr

/-- `chrono::Duration::num_days` on a duration of `secs` seconds:
whole days, truncated toward zero. -/
def numDays (secs : ℤ) : ℤ :=
  secs.tdiv 86400

namespace CognitiveView

/-- `CognitiveView::get_status`. -/
def get_status (v : CognitiveView) : ViewStatus :=
  ViewStatus.from_string v.status

/-- `CognitiveView::counter_evidence_ratio` (`cognitive.rs` lines 166–171). -/
def counter_evidence_ratio (v : CognitiveView) : ℚ :=
  if v.evidence_count = 0 then 0
  else (v.counter_evidence_count : ℚ) / (v.evidence_count : ℚ)

/-- `CognitiveView::should_be_rejected` (`cognitive.rs` lines 176–178). -/
def should_be_rejected (v : CognitiveView) : Bool :=
  v.counter_evidence_ratio > 3/10

/-- `CognitiveView::is_ready_for_promotion` (`cognitive.rs` lines 137–160).
Note the body: the age test compares `expires_at - created_at` against
30 days, and no conflicting-view check appears. -/
def is_ready_for_promotion (v : CognitiveView) : Bool :=
  if v.confidence ≤ 85/100 then false
  else if v.validation_count < 3 then false
  else if numDays (v.expires_at - v.created_at) < 30 then false
  else if ¬ v.get_status.can_be_promoted then false
  else if v.counter_evidence_ratio ≥ 15/100 then false
  else true

/-- The contradiction pairs of `CognitiveView::has_conflict_with`. -/
def contradiction_pairs : List (List ℕ × List ℕ) :=
  [(strCodes "喜欢", strCodes "讨厌"),
   (strCodes "喜欢", strCodes "不喜欢"),
   (strCodes "爱", strCodes "恨"),
   (strCodes "经常", strCodes "很少"),
   (strCodes "总是", strCodes "从不"),
   (strCodes "每天", strCodes "从不"),
   (strCodes "习惯", strCodes "讨厌")]

/-- The sentiment words skipped by `hypothesis_matches_target`. -/
def sentiment_words : List (List ℕ) :=
  [strCodes "喜欢", strCodes "讨厌", strCodes "爱", strCodes "恨",
   strCodes "经常", strCodes "很少", strCodes "总是", strCodes "从不"]

/-- The delimiters `'的'`, `'是'`, `'吃'` used to split hypotheses. -/
def isHypothesisDelim (c : ℕ) : Bool :=
  c == (30340 : ℕ) || c == (26159 : ℕ) || c == (21507 : ℕ)

/-- Rust `str::split(closure)`: pieces between delimiter characters
(empty pieces included). -/
def splitOnDelims : List ℕ → List ℕ → List (List ℕ)
  | [], acc => [acc.reverse]
  | c :: rest, acc =>
      if isHypothesisDelim c then acc.reverse :: splitOnDelims rest []
      else splitOnDelims rest (c :: acc)

/-- One inner-loop test of `hypothesis_matches_target`: after trimming, skip
empty parts and sentiment words, then match on equality or substring
containment (Rust `self_clean == other_clean || self_clean.len() > 1 &&
other_clean.contains(self_clean)`; `len` is the UTF-8 byte length). -/
def partsMatch (self_part other_part : List ℕ) : Bool :=
  let self_clean := trimL self_part
  let other_clean := trimL other_part
  if self_clean.isEmpty || other_clean.isEmpty then false
  else if sentiment_words.contains self_clean ||
          sentiment_words.contains other_clean then false
  else self_clean == other_clean ||
       (byteLen self_clean > 1 && containsSub other_clean self_clean)

/-- `CognitiveView::hypothesis_matches_target` (`cognitive.rs` lines 232–265). -/
def hypothesis_matches_target (v : CognitiveView) (other : List ℕ) : Bool :=
  let self_parts := splitOnDelims (strCodes v.hypothesis) []
  let other_parts := splitOnDelims other []
  self_parts.any fun sp => other_parts.any fun op => partsMatch sp op

/-- One pair test of the loop in `has_conflict_with`: one hypothesis contains
the positive word and the other the negative word (either way round). -/
def pairConflicts (selfH otherH : List ℕ) (p : List ℕ × List ℕ) : Bool :=
  (containsSub selfH p.1 && containsSub otherH p.2) ||
  (containsSub selfH p.2 && containsSub otherH p.1)

/-- `CognitiveView::has_conflict_with` (`cognitive.rs` lines 187–225). -/
def has_conflict_with (v other : CognitiveView) : Bool :=
  if v.view_id == other.view_id || v.user_id != other.user_id then false
  else
    contradiction_pairs.any fun p =>
      pairConflicts (strCodes v.hypothesis) (strCodes other.hypothesis) p &&
      v.hypothesis_matches_target (strCodes other.hypothesis)

end CognitiveView

/-! ## Theorems about `cognitive.rs` (claims C1, C2, C3, C10) -/

/-- Characterization of the promotion gate as a conjunction (helper). -/
theorem is_ready_for_promotion_iff (v : CognitiveView) :
    v.is_ready_for_promotion = true ↔
      (85/100 : ℚ) < v.confidence ∧ 3 ≤ v.validation_count ∧
      30 ≤ numDays (v.expires_at - v.created_at) ∧
      v.get_status.can_be_promoted = true ∧
      v.counter_evidence_ratio < 15/100 := by
  unfold CognitiveView.is_ready_for_promotion
  split_ifs with h1 h2 h3 h4 h5 <;> simp_all

/-- A view whose hypothesis is "用户喜欢吃水果", numerically over every gate
threshold, created at time 0 with the default 30-day expiry horizon widened
to 40 days. -/
def viewLikesFruit : CognitiveView :=
  { view_id := 1, user_id := "test_user", hypothesis := "用户喜欢吃水果",
    evidence_count := 10, confidence := 9/10, validation_count := 5,
    status := "active", created_at := 0, expires_at := 40*86400,
    counter_evidence_count := 0 }

/-- The contradicting view "用户讨厌吃水果" for the same owner. -/
def viewHatesFruit : CognitiveView :=
  { viewLikesFruit with view_id := 2, hypothesis := "用户讨厌吃水果" }

/-- C1. The claim says the gate passes only when, among other conditions,
`age ≥ 30 days` measured as `now − created_at` holds and no conflicting
active view exists for the same owner.  The code's gate
(`CognitiveView::is_ready_for_promotion`) takes no clock and consults no
other view: it admits both "用户喜欢吃水果" and "用户讨厌吃水果" for the same
owner even though the code's own conflict detector flags them as
contradictory (and even at `now = created_at`, age 0). -/
theorem c1_gate_admits_conflicting_views :
    viewLikesFruit.is_ready_for_promotion = true ∧
    viewHatesFruit.is_ready_for_promotion = true ∧
    viewLikesFruit.has_conflict_with viewHatesFruit = true ∧
    viewLikesFruit.user_id = viewHatesFruit.user_id ∧
    viewLikesFruit.get_status.is_active = true ∧
    viewHatesFruit.get_status.is_active = true := by
  have h1 : viewLikesFruit.is_ready_for_promotion = true :=
    (is_ready_for_promotion_iff _).2
      ⟨by norm_num [viewLikesFruit], by decide, by decide, by decide,
       by norm_num [viewLikesFruit, CognitiveView.counter_evidence_ratio]⟩
  have h2 : viewHatesFruit.is_ready_for_promotion = true :=
    (is_ready_for_promotion_iff _).2
      ⟨by norm_num [viewHatesFruit, viewLikesFruit], by decide, by decide, by decide,
       by norm_num [viewHatesFruit, viewLikesFruit,
         CognitiveView.counter_evidence_ratio]⟩
  exact ⟨h1, h2, by decide, by decide, by decide, by decide⟩

/-- C2. A view with `evidence_count = 0` has counter-evidence ratio 0, no
matter how large `counter_evidence_count` is, and `should_be_rejected` is
false for it: it is never auto-rejected on counter-evidence grounds. -/
theorem c2_zero_evidence_ratio_zero (v : CognitiveView)
    (h : v.evidence_count = 0) :
    v.counter_evidence_ratio = 0 ∧ v.should_be_rejected = false := by
  have hr : v.counter_evidence_ratio = 0 := by
    simp [CognitiveView.counter_evidence_ratio, h]
  refine ⟨hr, ?_⟩
  simp [CognitiveView.should_be_rejected, hr]
  norm_num

/-- A zero-evidence view carrying a million counter-evidence events. -/
def viewZeroEvidence : CognitiveView :=
  { viewLikesFruit with evidence_count := 0, counter_evidence_count := 1000000 }

/-- Witness for C2 at a concrete zero-evidence view. -/
theorem c2_zero_evidence_ratio_zero_witness :
    viewZeroEvidence.evidence_count = 0 ∧
    (viewZeroEvidence.counter_evidence_ratio = 0 ∧
     viewZeroEvidence.should_be_rejected = false) :=
  ⟨rfl, c2_zero_evidence_ratio_zero viewZeroEvidence rfl⟩

/-- A view with 10 supporting events and exactly 3 counter-evidence events:
its ratio is exactly 0.30. -/
def viewRatioThirty : CognitiveView :=
  { viewLikesFruit with evidence_count := 10, counter_evidence_count := 3 }

/-- C3 counterexample. The claim says a view whose counter-evidence ratio is
exactly 0.30 is auto-rejected; the code's `should_be_rejected` tests
`ratio > 0.3` strictly, so this view is not rejected. -/
theorem c3_ratio_exactly_030_not_rejected :
    viewRatioThirty.counter_evidence_ratio = 3/10 ∧
    viewRatioThirty.should_be_rejected = false := by
  constructor
  · simp [CognitiveView.counter_evidence_ratio, viewRatioThirty, viewLikesFruit]
  · simp [CognitiveView.should_be_rejected, CognitiveView.counter_evidence_ratio,
      viewRatioThirty, viewLikesFruit]

/-- C3 amended. For a view with positive evidence count, `should_be_rejected`
holds exactly when the counter-evidence strictly exceeds 30% of the evidence
(`10 · counter > 3 · evidence`); ratios equal to 0.30 are not rejected. -/
theorem c3_amended_rejection_strict (v : CognitiveView)
    (h : 0 < v.evidence_count) :
    v.should_be_rejected = true ↔
      3 * v.evidence_count < 10 * v.counter_evidence_count := by
  have hne : v.evidence_count ≠ 0 := by omega
  have he : (0 : ℚ) < v.evidence_count := by exact_mod_cast h
  simp only [CognitiveView.should_be_rejected, CognitiveView.counter_evidence_ratio,
    hne, if_false, decide_eq_true_eq, gt_iff_lt]
  rw [show (3/10 : ℚ) = (3 : ℚ)/(10 : ℚ) by norm_num,
    div_lt_div_iff₀ (by norm_num) he, mul_comm ((v.counter_evidence_count : ℚ)) 10]
  exact_mod_cast Iff.rfl

/-- A view with 10 supporting events and 4 counter-evidence events
(ratio 0.40). -/
def viewRatioForty : CognitiveView :=
  { viewLikesFruit with evidence_count := 10, counter_evidence_count := 4 }

/-- Witness for the amended C3: ratio 0.40 is auto-rejected. -/
theorem c3_amended_rejection_strict_witness :
    viewRatioForty.should_be_rejected = true :=
  (c3_amended_rejection_strict viewRatioForty (by decide)).2 (by decide)

/-- C10. Parsing a view's stored status string is total with default
`Active`: the four canonical strings map to their statuses, and every other
string maps to `Active`, so the promotion gate's status check
(`can_be_promoted`) treats a view holding any unrecognized status string as
promotable-status. -/
theorem c10_status_parse_total_default_active :
    (ViewStatus.from_string "active" = ViewStatus.active ∧
     ViewStatus.from_string "expired" = ViewStatus.expired ∧
     ViewStatus.from_string "promoted" = ViewStatus.promoted ∧
     ViewStatus.from_string "rejected" = ViewStatus.rejected) ∧
    ∀ v : CognitiveView, v.status ≠ "active" → v.status ≠ "expired" →
      v.status ≠ "promoted" → v.status ≠ "rejected" →
      v.get_status = ViewStatus.active ∧ v.get_status.can_be_promoted = true := by
  refine ⟨⟨rfl, rfl, rfl, rfl⟩, fun v h1 h2 h3 h4 => ?_⟩
  simp [CognitiveView.get_status, ViewStatus.from_string, h1, h2, h3, h4,
    ViewStatus.can_be_promoted]

/-- A view whose status column holds the unrecognized string "archived". -/
def viewUnknownStatus : CognitiveView :=
  { viewLikesFruit with status := "archived" }

/-- Witness for C10 at the unrecognized status string "archived". -/
theorem c10_status_parse_total_default_active_witness :
    viewUnknownStatus.get_status = ViewStatus.active ∧
    viewUnknownStatus.get_status.can_be_promoted = true :=
  c10_status_parse_total_default_active.2 viewUnknownStatus
    (by decide) (by decide) (by decide) (by decide)

/-! ## `resource_manager.rs`: memory pressure, circuit breaker, scheduler

`SystemTime` is modelled as whole seconds (`ℕ`); `SystemTime::elapsed()`
fails when the clock reads earlier than the stored instant, which the
embedding renders as the `last_check ≤ now` guard.  `get_memory_usage`
reads the OS; each scheduling request therefore carries the `MemoryUsage`
that the call would observe. -/

/-- `MemoryUsage` from `resource_manager.rs` (the timestamp field is
omitted: no embedded operation reads it). -/
structure MemoryUsage where
  total_mb : ℕ
  used_mb : ℕ
  available_mb : ℕ
  used_percent : ℚ
deriving DecidableEq, Repr

namespace MemoryUsage

/-- `MemoryUsage::is_under_pressure` (>85% used). -/
def is_under_pressure (u : MemoryUsage) : Bool :=
  u.used_percent > 85

/-- `MemoryUsage::is_critical` (>95% used). -/
def is_critical (u : MemoryUsage) : Bool :=
  u.used_percent > 95

end MemoryUsage

/-- `CircuitBreaker` from `resource_manager.rs`. -/
structure CircuitBreaker where
  is_open : Bool
  last_check : ℕ
  cooldown_sec : ℕ
deriving DecidableEq, Repr

namespace CircuitBreaker

/-- `CircuitBreaker::new(cooldown_sec)` at clock reading `now`. -/
def new (now cooldown_sec : ℕ) : CircuitBreaker :=
  { is_open := false, last_check := now, cooldown_sec := cooldown_sec }

/-- `CircuitBreaker::allow_task`: if the cooldown has elapsed, close the
circuit; return whether the circuit is closed (with the updated state). -/
def allow_task (cb : CircuitBreaker) (now : ℕ) : Bool × CircuitBreaker :=
  let cb' :=
    if cb.last_check ≤ now ∧ cb.cooldown_sec < now - cb.last_check then
      { cb with is_open := false }
    else cb
  (!cb'.is_open, cb')

/-- `CircuitBreaker::trip`. -/
def trip (cb : CircuitBreaker) (now : ℕ) : CircuitBreaker :=
  { cb with is_open := true, last_check := now }

end CircuitBreaker

/-- `TaskPriority` from `resource_manager.rs`. -/
inductive TaskPriority where
  | Critical
  | High
  | Medium
  | Low
deriving DecidableEq, Repr

/-- `ScheduledTask` from `resource_manager.rs`. -/
structure ScheduledTask where
  id : String
  priority : TaskPriority
  estimated_memory_mb : ℕ
  description : String
deriving DecidableEq, Repr

/-- `ScheduledTask::can_run`. -/
def ScheduledTask.can_run (t : ScheduledTask) (available_memory_mb : ℕ) : Bool :=
  t.estimated_memory_mb ≤ available_memory_mb

/-- `ResourceAwareScheduler::should_schedule` (`resource_manager.rs` lines
502–526), with the clock reading `now` and the `MemoryUsage` value `usage`
that `get_memory_usage` returns during the call.  Returns the decision and
the scheduler's updated circuit-breaker state. -/
def should_schedule (cb : CircuitBreaker) (now : ℕ) (usage : MemoryUsage)
    (task : ScheduledTask) : Bool × CircuitBreaker :=
  if task.priority = TaskPriority.Critical then (true, cb)
  else
    let (proceed, cb1) := if cb.is_open then cb.allow_task now else (true, cb)
    if !proceed then (false, cb1)
    else if usage.is_critical then (false, cb1.trip now)
    else (task.can_run usage.available_mb, cb1)

/-- One scheduling request: the clock and memory reading observed by
`should_schedule`, and the task submitted. -/
structure SchedRequest where
  now : ℕ
  usage : MemoryUsage
  task : ScheduledTask
deriving DecidableEq, Repr

/-- The sequence of decisions produced by running `should_schedule` over a
list of requests, threading the circuit-breaker state. -/
def schedule_run (cb : CircuitBreaker) : List SchedRequest → List Bool
  | [] => []
  | r :: rest =>
      let (d, cb') := should_schedule cb r.now r.usage r.task
      d :: schedule_run cb' rest

/-- Single-step form of C8 (helper): under a critical memory reading, a
non-Critical task is never admitted, whatever the breaker state. -/
theorem should_schedule_critical_denies (cb : CircuitBreaker) (now : ℕ)
    (usage : MemoryUsage) (task : ScheduledTask)
    (hcrit : usage.is_critical = true)
    (hpri : task.priority ≠ TaskPriority.Critical) :
    (should_schedule cb now usage task).1 = false := by
  unfold should_schedule
  simp only [hpri, if_false]
  by_cases hopen : cb.is_open <;>
    [skip; simp [hopen, CircuitBreaker.allow_task, hcrit]]
  simp only [hopen, if_true, CircuitBreaker.allow_task]
  split_ifs <;> simp [hcrit]

/-- `schedule_run` produces one decision per request (helper). -/
theorem schedule_run_length (cb : CircuitBreaker) (reqs : List SchedRequest) :
    (schedule_run cb reqs).length = reqs.length := by
  induction reqs generalizing cb with
  | nil => rfl
  | cons r rest ih => simp [schedule_run, ih]

/-- C8. Over every sequence of `should_schedule` decisions taken while every
observed memory reading is critical, no task of priority High, Medium or Low
is ever admitted: every decision for a non-Critical task is `false`,
whatever the initial circuit-breaker state. -/
theorem c8_critical_memory_only_critical_tasks (cb : CircuitBreaker)
    (reqs : List SchedRequest)
    (hcrit : ∀ r ∈ reqs, r.usage.is_critical = true) :
    ∀ i (hi : i < reqs.length) (hi2 : i < (schedule_run cb reqs).length),
      (reqs.get ⟨i, hi⟩).task.priority ≠ TaskPriority.Critical →
      (schedule_run cb reqs).get ⟨i, hi2⟩ = false := by
  induction reqs generalizing cb with
  | nil => intro i hi; simp at hi
  | cons r rest ih =>
      intro i hi hi2 hpri
      match i with
      | 0 =>
          have h0 : (should_schedule cb r.now r.usage r.task).1 = false :=
            should_schedule_critical_denies cb r.now r.usage r.task
              (hcrit r (by simp)) hpri
          simpa [schedule_run] using h0
      | Nat.succ j =>
          have hrest : ∀ x ∈ rest, x.usage.is_critical = true :=
            fun x hx => hcrit x (List.mem_cons_of_mem _ hx)
          have := ih (should_schedule cb r.now r.usage r.task).2 hrest j
            (by simpa using hi)
            (by simpa [schedule_run_length] using hi2)
          simpa [schedule_run] using this (by simpa using hpri)

/-- A critical memory reading: 7700 of 8000 MB used (96.25%). -/
def usageCritical : MemoryUsage :=
  { total_mb := 8000, used_mb := 7700, available_mb := 300,
    used_percent := 9625/100 }

/-- A two-request run under critical memory: a High-priority task then a
Low-priority task, with the breaker freshly created at time 0. -/
def reqsCritical : List SchedRequest :=
  [{ now := 10, usage := usageCritical,
     task := { id := "pattern_detection", priority := TaskPriority.High,
               estimated_memory_mb := 100, description := "detector" } },
   { now := 20, usage := usageCritical,
     task := { id := "tier_archival", priority := TaskPriority.Low,
               estimated_memory_mb := 10, description := "archiver" } }]

/-- Witness for C8: in the concrete critical-memory run, the High task
(index 0) is denied. -/
theorem c8_critical_memory_only_critical_tasks_witness :
    (schedule_run (CircuitBreaker.new 0 60) reqsCritical).get
      ⟨0, by simp [schedule_run_length, reqsCritical]⟩ = false :=
  c8_critical_memory_only_critical_tasks (CircuitBreaker.new 0 60) reqsCritical
    (by
      intro r hr
      simp only [reqsCritical, List.mem_cons, List.not_mem_nil, or_false] at hr
      rcases hr with h | h <;> subst h <;>
        simp [usageCritical, MemoryUsage.is_critical] <;> norm_num)
    0 (by simp [reqsCritical]) _ (by simp [reqsCritical])

/-! ## `error.rs`, `agents.rs`, `models.rs`: errors, permissions, events -/

/-- `DirSoulError` from `error.rs`: the complete list of variants.  Wrapped
payload types (`diesel` errors, `io::Error`, `serde_json::Error`) are
modelled by their display strings. -/
inductive DirSoulError where
  | Database (msg : String)
  | DatabaseConnection (msg : String)
  | Io (msg : String)
  | Serialization (msg : String)
  | Encryption (msg : String)
  | Config (msg : String)
  | NotFound (msg : String)
deriving DecidableEq, Repr

/-- The kind (variant name) of a `DirSoulError`; the enum in `error.rs` has
exactly these seven variants and in particular no `Permission` variant. -/
def DirSoulError.kind : DirSoulError → String
  | .Database _ => "Database"
  | .DatabaseConnection _ => "DatabaseConnection"
  | .Io _ => "Io"
  | .Serialization _ => "Serialization"
  | .Encryption _ => "Encryption"
  | .Config _ => "Config"
  | .NotFound _ => "NotFound"

/-- `MemoryPermission` from `agents.rs`. -/
inductive MemoryPermission where
  | ReadOnly
  | ReadWriteDerived
  | ReadWriteEvents
deriving DecidableEq, Repr

namespace MemoryPermission

/-- `MemoryPermission::as_i32`. -/
def as_i32 : MemoryPermission → ℤ
  | .ReadOnly => 1
  | .ReadWriteDerived => 2
  | .ReadWriteEvents => 3

/-- `MemoryPermission::can_read_stats`. -/
def can_read_stats : MemoryPermission → Bool
  | _ => true

/-- `MemoryPermission::can_modify_views`. -/
def can_modify_views : MemoryPermission → Bool
  | .ReadWriteDerived => true
  | .ReadWriteEvents => true
  | _ => false

/-- `MemoryPermission::can_create_events`. -/
def can_create_events : MemoryPermission → Bool
  | .ReadWriteEvents => true
  | _ => false

/-- `MemoryPermission::can_read_entities`. -/
def can_read_entities : MemoryPermission → Bool
  | .ReadWriteDerived => true
  | .ReadWriteEvents => true
  | _ => false

end MemoryPermission

/-- `NewEventMemory` from `models.rs` (UUIDs as `ℕ`, timestamps as `ℤ`
seconds, `f64` confidence/quantity as `ℚ`). -/
structure NewEventMemory where
  memory_id : ℕ
  user_id : String
  timestamp : ℤ
  actor : Option String
  action : String
  target : String
  quantity : Option ℚ
  unit : Option String
  confidence : ℚ
  extractor_version : Option String
deriving DecidableEq, Repr

/-- `EventMemory` from `models.rs`. -/
structure EventMemory where
  event_id : ℕ
  memory_id : ℕ
  user_id : String
  timestamp : ℤ
  actor : Option String
  action : String
  target : String
  quantity : Option ℚ
  unit : Option String
  confidence : ℚ
deriving DecidableEq, Repr

/-! ## `plugin.rs`: permission-guarded context and command routing

A `PluginMemoryInterface` is a trait object; the embedding passes the
implementation explicitly as a function from (user id, new event, store) to
(result, new store), and threads the event store as explicit state. -/

/-- A memory-interface implementation of `create_event` (the trait method the
context delegates to). -/
def MemoryIface : Type :=
  String → NewEventMemory → List EventMemory → Except DirSoulError EventMemory × List EventMemory

/-- `PluginContext` from `plugin.rs` (the `memory_interface` trait object is
passed explicitly to the operations). -/
structure PluginContext where
  plugin_id : String
  user_id : String
  permission : MemoryPermission
deriving DecidableEq, Repr

/-- `PluginContext::create_event` (`plugin.rs` lines 273–281): permission
check, then delegation to the memory interface. -/
def PluginContext.create_event (ctx : PluginContext) (iface : MemoryIface)
    (store : List EventMemory) (event : NewEventMemory) :
    Except DirSoulError EventMemory × List EventMemory :=
  if ¬ ctx.permission.can_create_events then
    (.error (.Config "Plugin does not have permission to create events"), store)
  else iface ctx.user_id event store

/-- An interface implementation that really inserts: it appends the event to
the store (used to show the permission guard prevents any insertion). -/
def insertingIface (fresh_id : ℕ) : MemoryIface :=
  fun uid ev store =>
    let inserted : EventMemory :=
      { event_id := fresh_id, memory_id := ev.memory_id, user_id := uid,
        timestamp := ev.timestamp, actor := ev.actor, action := ev.action,
        target := ev.target, quantity := ev.quantity, unit := ev.unit,
        confidence := ev.confidence }
    (.ok inserted, store ++ [inserted])

/-- `PluginResponse` from `plugin.rs` (metadata blob omitted). -/
structure PluginResponse where
  content : String
  sources : List ℕ
  confidence : ℚ
  timestamp : ℤ
deriving DecidableEq, Repr

/-- `CommandResponse` from `plugin.rs`. -/
inductive CommandResponse where
  | Plugin (r : PluginResponse)
  | Default (r : PluginResponse)
  | Error (msg : String)
deriving DecidableEq, Repr

/-- The `NewEventMemory` value built by
`CommandRouter::log_plugin_interaction` (`plugin.rs` lines 929–940):
`action = "chat_with_plugin"`, `target = plugin_id`, `actor = user`. -/
def pluginInteractionEvent (user_id plugin_id : String) (now : ℤ)
    (fresh_uuid : ℕ) : NewEventMemory :=
  { memory_id := fresh_uuid, user_id := user_id, timestamp := now,
    actor := some user_id, action := "chat_with_plugin", target := plugin_id,
    quantity := none, unit := none, confidence := 1,
    extractor_version := some "command_router" }

/-- `CommandRouter::log_plugin_interaction` (`plugin.rs` lines 922–957): the
event value is constructed and then dropped (`// TODO: Store event in
database` … `let _event = event;`); the function returns `Ok(())` without
touching the event store. -/
def log_plugin_interaction (user_id plugin_id : String)
    (_query : String) (_response : PluginResponse) (now : ℤ) (fresh_uuid : ℕ)
    (store : List EventMemory) : Except DirSoulError Unit × List EventMemory :=
  let event := pluginInteractionEvent user_id plugin_id now fresh_uuid
  let _event := event
  (.ok (), store)

/-- `CommandRouter::route_to_plugin` (`plugin.rs` lines 876–904): health
check, plugin query with the `?` operator, then `log_plugin_interaction`
with `?`, then `Ok(CommandResponse::Plugin(response))`.  The plugin's
`on_query` handler is passed explicitly. -/
def route_to_plugin (user_id plugin_id : String) (query : String)
    (healthy : Bool) (handler : String → Except DirSoulError PluginResponse)
    (now : ℤ) (fresh_uuid : ℕ) (store : List EventMemory) :
    Except DirSoulError CommandResponse × List EventMemory :=
  if !healthy then
    (.ok (.Error ("Plugin '" ++ plugin_id ++ "' is not healthy")), store)
  else
    match handler query with
    | .error e => (.error e, store)
    | .ok response =>
        match log_plugin_interaction user_id plugin_id query response now
            fresh_uuid store with
        | (.error e, store1) => (.error e, store1)
        | (.ok _, store1) => (.ok (.Plugin response), store1)

/-! ## Theorems about `plugin.rs` (claims C5, C6) -/

/-- A ReadOnly-grant context for the statistics plugin. -/
def ctxReadOnly : PluginContext :=
  { plugin_id := "stats", user_id := "user1",
    permission := MemoryPermission.ReadOnly }

/-- A concrete event-creation request. -/
def eventReq : NewEventMemory :=
  { memory_id := 7, user_id := "user1", timestamp := 1000, actor := none,
    action := "eat", target := "apple", quantity := none, unit := none,
    confidence := 9/10, extractor_version := none }

/-- C5 counterexample. A plugin with grant `ReadOnly` calling `create_event`
gets back the `Config` variant of `DirSoulError` — not a `Permission` kind
(the error enum in `error.rs` has no `Permission` variant) — and no event is
inserted, even through an interface that would really insert. -/
theorem c5_readonly_create_event_config_error :
    ctxReadOnly.create_event (insertingIface 42) [] eventReq =
      (.error (.Config "Plugin does not have permission to create events"), []) ∧
    (DirSoulError.Config
      "Plugin does not have permission to create events").kind = "Config" :=
  ⟨rfl, rfl⟩

/-- C5 amended. For every context whose granted permission level does not
allow event creation (`can_create_events` is false, i.e. grant `ReadOnly` or
`ReadWriteDerived`), `create_event` returns the typed `Config` error carrying
the permission-denial message, the memory interface is never consulted, and
the event store is unchanged; moreover no `DirSoulError` kind is named
`Permission`. -/
theorem c5_amended_denied_create_event (ctx : PluginContext)
    (iface : MemoryIface) (store : List EventMemory) (event : NewEventMemory)
    (h : ctx.permission.can_create_events = false) :
    ctx.create_event iface store event =
      (.error (.Config "Plugin does not have permission to create events"),
       store) ∧
    ∀ e : DirSoulError, e.kind ≠ "Permission" := by
  refine ⟨?_, fun e => by cases e <;> simp [DirSoulError.kind]⟩
  simp [PluginContext.create_event, h]

/-- Witness for the amended C5 at the concrete ReadOnly context. -/
theorem c5_amended_denied_create_event_witness :
    ctxReadOnly.create_event (insertingIface 42) [] eventReq =
      (.error (.Config "Plugin does not have permission to create events"),
       []) ∧
    ∀ e : DirSoulError, e.kind ≠ "Permission" :=
  c5_amended_denied_create_event ctxReadOnly (insertingIface 42) [] eventReq
    (by decide)

/-- C6. For every routed plugin exchange whose query handler succeeds, the
router constructs the `chat_with_plugin` event value but inserts nothing:
the event store after `route_to_plugin` equals the store before, for every
prior store and every successful response.  (The event value itself does
carry `action = "chat_with_plugin"` and `target = plugin_id` as the claim
says; only the insertion is missing — `log_plugin_interaction` drops it at
its `TODO: Store event in database`.) -/
theorem c6_routed_exchange_never_inserted (store : List EventMemory)
    (response : PluginResponse) (query : String) (now : ℤ) (fresh_uuid : ℕ) :
    route_to_plugin "user1" "decision" query true (fun _ => .ok response)
        now fresh_uuid store =
      (.ok (.Plugin response), store) ∧
    (pluginInteractionEvent "user1" "decision" now fresh_uuid).action =
      "chat_with_plugin" ∧
    (pluginInteractionEvent "user1" "decision" now fresh_uuid).target =
      "decision" := by
  exact ⟨rfl, rfl, rfl⟩

/-! ## `entity_linker.rs`: mention normalization (claim C9) -/

/-- `EntityLinker::normalize_mention` (`entity_linker.rs` lines 115–143):
trim, match the lowercased mention against the alias table, otherwise
lowercase-then-capitalize if the mention is all ASCII, otherwise keep the
trimmed mention verbatim. -/
def normalize_mention (mention : List ℕ) : List ℕ :=
  if lowerL (trimL mention) = strCodes "苹果" ∨
      lowerL (trimL mention) = strCodes "apple inc" ∨
      lowerL (trimL mention) = strCodes "apple computer" then strCodes "Apple"
  else if lowerL (trimL mention) = strCodes "谷歌" ∨
      lowerL (trimL mention) = strCodes "google" then strCodes "Google"
  else if lowerL (trimL mention) = strCodes "微软" ∨
      lowerL (trimL mention) = strCodes "microsoft" then strCodes "Microsoft"
  else if lowerL (trimL mention) = strCodes "特斯拉" ∨
      lowerL (trimL mention) = strCodes "tesla" then strCodes "Tesla"
  else if (trimL mention).all (fun c => c < 128) then
    match lowerL (trimL mention) with
    | [] => []
    | c :: rest => charUpper c :: rest
  else trimL mention

/-- Lowercasing does not change whether a character is whitespace (helper). -/
theorem isRustWhitespace_charLower (c : ℕ) :
    isRustWhitespace (charLower c) = isRustWhitespace c := by
  unfold charLower
  split_ifs with h
  · simp only [isRustWhitespace, decide_eq_decide]
    omega
  · rfl

/-- Uppercasing does not change whether a character is whitespace (helper). -/
theorem isRustWhitespace_charUpper (c : ℕ) :
    isRustWhitespace (charUpper c) = isRustWhitespace c := by
  unfold charUpper
  split_ifs with h
  · simp only [isRustWhitespace, decide_eq_decide]
    omega
  · rfl

/-- Lowercasing is idempotent on characters (helper). -/
theorem charLower_charLower (c : ℕ) :
    charLower (charLower c) = charLower c := by
  simp only [charLower]
  split_ifs <;> omega

/-- Uppercasing then lowercasing a lowercased character recovers it
(helper). -/
theorem charLower_charUpper_charLower (c : ℕ) :
    charLower (charUpper (charLower c)) = charLower c := by
  simp only [charLower, charUpper]
  split_ifs <;> omega

/-- Lowercasing preserves ASCII-ness (helper). -/
theorem charLower_ascii {c : ℕ} (h : c < 128) : charLower c < 128 := by
  simp only [charLower]
  split_ifs <;> omega

/-- Uppercasing preserves ASCII-ness (helper). -/
theorem charUpper_ascii {c : ℕ} (h : c < 128) : charUpper c < 128 := by
  simp only [charUpper]
  split_ifs <;> omega

/-- `trimL` unchanged-ness splits into the two one-sided trims (helper). -/
theorem trimL_eq_self_iff (s : List ℕ) :
    trimL s = s ↔
      s.dropWhile isRustWhitespace = s ∧
      List.rdropWhile isRustWhitespace s = s := by
  constructor
  · intro h
    have hsub1 : (s.dropWhile isRustWhitespace).Sublist s :=
      (List.dropWhile_suffix _).sublist
    have hsub2 : (List.rdropWhile isRustWhitespace
        (s.dropWhile isRustWhitespace)).Sublist (s.dropWhile isRustWhitespace) :=
      (List.rdropWhile_prefix _ _).sublist
    have hlen : s.length ≤ (s.dropWhile isRustWhitespace).length := by
      have := congrArg List.length h
      simp only [trimL] at this
      have := hsub2.length_le
      omega
    have hdrop : s.dropWhile isRustWhitespace = s :=
      (hsub1.eq_of_length (le_antisymm hsub1.length_le hlen)).symm ▸ rfl
    refine ⟨hdrop, ?_⟩
    rw [trimL, hdrop] at h
    exact h
  · intro ⟨h1, h2⟩
    rw [trimL, h1, h2]

/-- `trimL` is idempotent (helper). -/
theorem trimL_trimL (s : List ℕ) : trimL (trimL s) = trimL s := by
  rw [trimL_eq_self_iff]
  constructor
  · rw [List.dropWhile_eq_self_iff]
    intro hl
    have hpre : (List.rdropWhile isRustWhitespace
        (s.dropWhile isRustWhitespace)) <+: s.dropWhile isRustWhitespace :=
      List.rdropWhile_prefix _ _
    have hlen : 0 < (s.dropWhile isRustWhitespace).length :=
      lt_of_lt_of_le hl hpre.sublist.length_le
    have hget := hpre.getElem (by simpa [trimL] using hl)
    have := List.dropWhile_get_zero_not isRustWhitespace s hlen
    simp only [trimL, List.get_eq_getElem] at hget ⊢
    rw [hget]
    simpa [List.get_eq_getElem] using this
  · exact List.rdropWhile_idempotent _ _

/-- The head of a nonempty `trimL` result is not whitespace (helper). -/
theorem trimL_head_not_ws (s : List ℕ) (h : 0 < (trimL s).length) :
    isRustWhitespace ((trimL s).get ⟨0, h⟩) = false := by
  have := (trimL_eq_self_iff (trimL s)).1 (trimL_trimL s)
  have h1 := this.1
  rw [List.dropWhile_eq_self_iff] at h1
  simpa using h1 h

/-- The last element of a nonempty `trimL` result is not whitespace
(helper). -/
theorem trimL_getLast_not_ws (s : List ℕ) (h : trimL s ≠ []) :
    isRustWhitespace ((trimL s).getLast h) = false := by
  have := (trimL_eq_self_iff (trimL s)).1 (trimL_trimL s)
  have h2 := this.2
  rw [List.rdropWhile_eq_self_iff] at h2
  simpa using h2 h

/-- A list whose head and last element are not whitespace is unchanged by
`trimL` (helper). -/
theorem trimL_eq_self_of_ends (s : List ℕ)
    (h1 : ∀ hl : 0 < s.length, isRustWhitespace (s.get ⟨0, hl⟩) = false)
    (h2 : ∀ hl : s ≠ [], isRustWhitespace (s.getLast hl) = false) :
    trimL s = s := by
  rw [trimL_eq_self_iff]
  constructor
  · rw [List.dropWhile_eq_self_iff]
    intro hl
    have := h1 hl
    simp only [List.get_eq_getElem] at this
    simp [this]
  · rw [List.rdropWhile_eq_self_iff]
    intro hl
    simp [h2 hl]

/-- C9. `normalize_mention` is idempotent:
`normalize(normalize(s)) = normalize(s)` for every mention, covering the
alias-table branch, the ASCII lowercase-then-capitalize branch, and the
non-ASCII verbatim branch. -/
theorem c9_normalize_mention_idempotent (s : List ℕ) :
    normalize_mention (normalize_mention s) = normalize_mention s := by
  have key : ∀ t : List ℕ, trimL t = t →
      normalize_mention (normalize_mention t) = normalize_mention t := by
    intro t ht
    by_cases h1 : lowerL t = strCodes "苹果" ∨ lowerL t = strCodes "apple inc" ∨
        lowerL t = strCodes "apple computer"
    · have e : normalize_mention t = strCodes "Apple" := by
        unfold normalize_mention
        simp only [ht]
        rw [if_pos h1]
      rw [e]
      decide
    · by_cases h2 : lowerL t = strCodes "谷歌" ∨ lowerL t = strCodes "google"
      · have e : normalize_mention t = strCodes "Google" := by
          unfold normalize_mention
          simp only [ht]
          rw [if_neg h1, if_pos h2]
        rw [e]
        decide
      · by_cases h3 : lowerL t = strCodes "微软" ∨ lowerL t = strCodes "microsoft"
        · have e : normalize_mention t = strCodes "Microsoft" := by
            unfold normalize_mention
            simp only [ht]
            rw [if_neg h1, if_neg h2, if_pos h3]
          rw [e]
          decide
        · by_cases h4 : lowerL t = strCodes "特斯拉" ∨ lowerL t = strCodes "tesla"
          · have e : normalize_mention t = strCodes "Tesla" := by
              unfold normalize_mention
              simp only [ht]
              rw [if_neg h1, if_neg h2, if_neg h3, if_pos h4]
            rw [e]
            decide
          · by_cases h5 : t.all (fun c => c < 128) = true
            · cases t with
              | nil =>
                  have e : normalize_mention [] = [] := by decide
                  rw [e, e]
              | cons t0 tt =>
                  have e : normalize_mention (t0 :: tt) =
                      charUpper (charLower t0) :: List.map charLower tt := by
                    unfold normalize_mention
                    simp only [ht]
                    rw [if_neg h1, if_neg h2, if_neg h3, if_neg h4, if_pos h5]
                    rfl
                  rw [e]
                  have hlow : lowerL (charUpper (charLower t0) ::
                      List.map charLower tt) = lowerL (t0 :: tt) := by
                    simp only [lowerL, List.map, List.map_map,
                      charLower_charUpper_charLower, List.map_cons]
                    congr 1
                    · exact List.map_congr_left fun x _ => charLower_charLower x
                  have h0ws : isRustWhitespace t0 = false := by
                    have := trimL_head_not_ws (t0 :: tt)
                    rw [ht] at this
                    simpa using this (by simp)
                  have hends : trimL (charUpper (charLower t0) ::
                      List.map charLower tt) = charUpper (charLower t0) ::
                      List.map charLower tt := by
                    apply trimL_eq_self_of_ends
                    · intro hl
                      show isRustWhitespace (charUpper (charLower t0)) = false
                      rw [isRustWhitespace_charUpper, isRustWhitespace_charLower]
                      exact h0ws
                    · intro hl
                      cases tt with
                      | nil =>
                          simp only [List.map_nil, List.getLast_singleton]
                          rw [isRustWhitespace_charUpper,
                            isRustWhitespace_charLower]
                          exact h0ws
                      | cons u us =>
                          have hne : (u :: us : List ℕ) ≠ [] := by simp
                          have hlast : isRustWhitespace
                              ((t0 :: u :: us).getLast (by simp)) = false := by
                            have := trimL_getLast_not_ws (t0 :: u :: us)
                            rw [ht] at this
                            exact this (by simp)
                          rw [List.getLast_cons hne] at hlast
                          have hmapne : List.map charLower (u :: us) ≠ [] := by
                            simp
                          rw [List.getLast_cons hmapne, List.getLast_map]
                          rw [isRustWhitespace_charLower]
                          exact hlast
                  have hascii : (charUpper (charLower t0) ::
                      List.map charLower tt).all (fun c => c < 128) = true := by
                    simp only [List.all_cons, List.all_map, Bool.and_eq_true,
                      decide_eq_true_eq] at h5 ⊢
                    obtain ⟨ha, hb⟩ := h5
                    refine ⟨charUpper_ascii (charLower_ascii ha), ?_⟩
                    refine List.all_eq_true.2 fun x hx => ?_
                    have := List.all_eq_true.1 hb x hx
                    simpa using charLower_ascii
                      (by simpa using this : x < 128)
                  unfold normalize_mention
                  simp only [hends, hlow]
                  rw [if_neg h1, if_neg h2, if_neg h3, if_neg h4, if_pos hascii]
                  rfl
            · have e : normalize_mention t = t := by
                unfold normalize_mention
                simp only [ht]
                rw [if_neg h1, if_neg h2, if_neg h3, if_neg h4, if_neg h5]
              simp only [e]
  have houter : normalize_mention s = normalize_mention (trimL s) := by
    unfold normalize_mention
    simp only [trimL_trimL]
  rw [houter]
  exact key (trimL s) (trimL_trimL s)

/-! ## `crypto.rs`: the Crypto Box (claim C4)

`EncryptionManager::encrypt`/`decrypt` delegate to the `fernet` crate, an
external dependency whose source is not part of this repository.

Modelled from the spec: the spec describes the Crypto Box only as "symmetric
at-rest encryption with per-install key file" whose primitive is the Fernet
token scheme named by `crypto.rs`.  The published Fernet format is
`base64url(0x80 ‖ timestamp(8) ‖ IV(16) ‖ body ‖ HMAC(32))`, and
`Fernet::encrypt` draws a fresh random IV from the OS and the current
timestamp on every call.  The model below keeps exactly that shape —
version byte, 8 timestamp bytes, 16 IV bytes, payload, 32 MAC bytes,
ASCII-encoded — with the timestamp and IV passed explicitly (determinizing
the crate's clock and RNG), the AES-CBC layer replaced by the payload bytes
themselves, the HMAC replaced by a keyed checksum, and base64url replaced by
a hexadecimal ASCII encoding.  What the claim turns on — decryption inverts
encryption, and a token embeds the timestamp and IV drawn at encryption
time, so re-encrypting the same plaintext under a different timestamp or IV
yields a different token — is preserved. -/

/-- Hex digit character code (the ASCII token alphabet of the model). -/
def hexCode (n : ℕ) : ℕ :=
  if n < 10 then 48 + n else 87 + n

/-- One byte as two hex character codes. -/
def byteToHex (b : ℕ) : List ℕ :=
  [hexCode (b / 16 % 16), hexCode (b % 16)]

/-- Inverse of `hexCode` on character codes. -/
def hexVal (c : ℕ) : Option ℕ :=
  if 48 ≤ c ∧ c ≤ 57 then some (c - 48)
  else if 97 ≤ c ∧ c ≤ 102 then some (c - 87)
  else none

/-- Parse a hex character string back into bytes. -/
def parseHex : List ℕ → Option (List ℕ)
  | [] => some []
  | [_] => none
  | c1 :: c2 :: rest =>
      match hexVal c1, hexVal c2, parseHex rest with
      | some h, some l, some bs => some ((16 * h + l) :: bs)
      | _, _, _ => none

/-- The 8 big-endian timestamp bytes of a Fernet token. -/
def tsBytes (ts : ℕ) : List ℕ :=
  (List.range 8).map fun i => ts / 256 ^ (7 - i) % 256

/-- Modelled from the spec: stand-in for the HMAC-SHA256 tag of a Fernet
token — a 32-byte keyed checksum of the signed portion. -/
def hmacModel (key : ℕ) (payload : List ℕ) : List ℕ :=
  (List.range 32).map fun i =>
    (key + payload.foldl (fun a b => (a * 31 + b) % 4294967296) 7 + i) % 256

/-- The signed byte sequence of a token:
`0x80 ‖ timestamp ‖ IV ‖ payload`. -/
def fernetPlain (ts : ℕ) (iv data : List ℕ) : List ℕ :=
  128 :: (tsBytes ts ++ iv ++ data)

/-- Modelled from the spec: `fernet::Fernet::encrypt` determinized over the
timestamp and IV it draws; returns the token's character codes. -/
def fernet_encrypt (key ts : ℕ) (iv data : List ℕ) : List ℕ :=
  ((fernetPlain ts iv data ++
    hmacModel key (fernetPlain ts iv data)).map byteToHex).flatten

/-- Modelled from the spec: `fernet::Fernet::decrypt` — decode, check the
minimum structure, the version byte and the tag, and return the payload. -/
def fernet_decrypt (key : ℕ) (token : List ℕ) : Option (List ℕ) :=
  match parseHex token with
  | none => none
  | some bytes =>
      if bytes.length < 57 then none
      else if bytes.head? ≠ some 128 then none
      else if bytes.drop (bytes.length - 32) ≠
          hmacModel key (bytes.take (bytes.length - 32)) then none
      else some ((bytes.take (bytes.length - 32)).drop 25)

/-- `EncryptionManager` from `crypto.rs` (the key file path is omitted; the
loaded Fernet key is the model key). -/
structure EncryptionManager where
  key : ℕ
deriving DecidableEq, Repr

namespace EncryptionManager

/-- `EncryptionManager::encrypt` (`crypto.rs` lines 150–154): the Fernet
token string's bytes (the token is ASCII, so its bytes are its character
codes), with the crate's fresh timestamp and IV passed explicitly. -/
def encrypt (m : EncryptionManager) (ts : ℕ) (iv : List ℕ)
    (data : List ℕ) : Except DirSoulError (List ℕ) :=
  .ok (fernet_encrypt m.key ts iv data)

/-- `EncryptionManager::decrypt` (`crypto.rs` lines 170–185): reject inputs
shorter than `FERNET_MIN_SIZE = 32` bytes, reject non-UTF-8 (the model's
UTF-8 region is the ASCII bytes, which covers every token), then delegate to
Fernet decryption. -/
def decrypt (m : EncryptionManager) (encrypted : List ℕ) :
    Except DirSoulError (List ℕ) :=
  if encrypted.length < 32 then
    .error (.Encryption "Encrypted data too short")
  else if ¬ encrypted.all (fun c => c < 128) then
    .error (.Encryption "Invalid UTF-8")
  else
    match fernet_decrypt m.key encrypted with
    | some data => .ok data
    | none => .error (.Encryption "Decryption failed")

end EncryptionManager

/-! ### Round-trip lemmas for the token codec (helpers) -/

/-- `hexVal` inverts `hexCode` on nibbles (helper). -/
theorem hexVal_hexCode : ∀ n : ℕ, n < 16 → hexVal (hexCode n) = some n := by
  decide

/-- Hex digit codes are ASCII (helper). -/
theorem hexCode_ascii : ∀ n : ℕ, n < 16 → hexCode n < 128 := by
  decide

/-- `parseHex` inverts the per-byte hex encoding (helper). -/
theorem parseHex_join (bytes : List ℕ) (h : ∀ b ∈ bytes, b < 256) :
    parseHex ((bytes.map byteToHex).flatten) = some bytes := by
  induction bytes with
  | nil => rfl
  | cons b bs ih =>
      have hb : b < 256 := h b (by simp)
      have hbs := ih fun x hx => h x (List.mem_cons_of_mem _ hx)
      show parseHex (hexCode (b / 16 % 16) :: hexCode (b % 16) ::
        (bs.map byteToHex).flatten) = some (b :: bs)
      rw [parseHex, hexVal_hexCode _ (by omega), hexVal_hexCode _ (by omega),
        hbs]
      have hb' : 16 * (b / 16 % 16) + b % 16 = b := by omega
      simp [hb']

/-- Token length is twice the byte count (helper). -/
theorem join_map_byteToHex_length (bytes : List ℕ) :
    ((bytes.map byteToHex).flatten).length = 2 * bytes.length := by
  induction bytes with
  | nil => rfl
  | cons b bs ih =>
      simp only [List.map_cons, List.flatten_cons, List.length_append, ih,
        byteToHex, List.length_cons, List.length_nil]
      omega

/-- Every token character is ASCII (helper). -/
theorem join_map_byteToHex_ascii (bytes : List ℕ) :
    ((bytes.map byteToHex).flatten).all (fun c => c < 128) = true := by
  rw [List.all_eq_true]
  intro x hx
  rw [List.mem_flatten] at hx
  obtain ⟨l, hl, hxl⟩ := hx
  rw [List.mem_map] at hl
  obtain ⟨b, _, rfl⟩ := hl
  simp only [byteToHex, List.mem_cons, List.not_mem_nil, or_false] at hxl
  rcases hxl with rfl | rfl <;>
    simpa using hexCode_ascii _ (by omega)

/-- Every byte of the signed portion of a well-formed token is below 256
(helper). -/
theorem fernetPlain_bytes_lt (ts : ℕ) (iv data : List ℕ)
    (hiv : ∀ b ∈ iv, b < 256) (hd : ∀ b ∈ data, b < 256) :
    ∀ b ∈ fernetPlain ts iv data, b < 256 := by
  intro b hb
  simp only [fernetPlain, List.mem_cons, List.mem_append, tsBytes,
    List.mem_map, List.mem_range] at hb
  rcases hb with rfl | ⟨⟨i, _, rfl⟩ | hb⟩ | hb
  · omega
  · exact Nat.mod_lt _ (by omega)
  · exact hiv b hb
  · exact hd b hb

/-- MAC bytes are below 256 (helper). -/
theorem hmacModel_bytes_lt (key : ℕ) (payload : List ℕ) :
    ∀ b ∈ hmacModel key payload, b < 256 := by
  intro b hb
  simp only [hmacModel, List.mem_map, List.mem_range] at hb
  obtain ⟨i, _, rfl⟩ := hb
  exact Nat.mod_lt _ (by omega)

/-- The MAC always has 32 bytes (helper). -/
theorem hmacModel_length (key : ℕ) (payload : List ℕ) :
    (hmacModel key payload).length = 32 := by
  simp [hmacModel]

/-- The signed portion has `57 + data.length` bytes when the IV is 16 bytes
(helper). -/
theorem fernetPlain_length (ts : ℕ) (iv data : List ℕ) (h16 : iv.length = 16) :
    (fernetPlain ts iv data).length = 25 + data.length := by
  simp [fernetPlain, tsBytes, h16]
  omega

/-- C4 amended, round-trip direction. For every key, timestamp, 16-byte IV
and byte plaintext, `decrypt(encrypt(p)) = p` through the `crypto.rs`
wrapper: the token passes the length and UTF-8 checks and Fernet decryption
recovers exactly the plaintext. -/
theorem c4_amended_decrypt_encrypt (key ts : ℕ) (iv data : List ℕ)
    (h16 : iv.length = 16) (hiv : ∀ b ∈ iv, b < 256)
    (hd : ∀ b ∈ data, b < 256) :
    (EncryptionManager.mk key).encrypt ts iv data =
      .ok (fernet_encrypt key ts iv data) ∧
    (EncryptionManager.mk key).decrypt (fernet_encrypt key ts iv data) =
      .ok data := by
  refine ⟨rfl, ?_⟩
  have hplain := fernetPlain_bytes_lt ts iv data hiv hd
  have hall : ∀ b ∈ fernetPlain ts iv data ++
      hmacModel key (fernetPlain ts iv data), b < 256 := by
    intro b hb
    rcases List.mem_append.1 hb with hb | hb
    · exact hplain b hb
    · exact hmacModel_bytes_lt _ _ b hb
  have hparse : parseHex (fernet_encrypt key ts iv data) =
      some (fernetPlain ts iv data ++ hmacModel key (fernetPlain ts iv data)) :=
    parseHex_join _ hall
  have hplen : (fernetPlain ts iv data).length = 25 + data.length :=
    fernetPlain_length ts iv data h16
  have hslen : (fernetPlain ts iv data ++
      hmacModel key (fernetPlain ts iv data)).length = 57 + data.length := by
    rw [List.length_append, hplen, hmacModel_length]
    omega
  have htoklen : (fernet_encrypt key ts iv data).length =
      2 * (57 + data.length) := by
    unfold fernet_encrypt
    rw [join_map_byteToHex_length, hslen]
  have hsub : (fernetPlain ts iv data ++
      hmacModel key (fernetPlain ts iv data)).length - 32 =
      (fernetPlain ts iv data).length := by
    rw [hslen, hplen]
    omega
  have hdrop : (fernetPlain ts iv data).drop 25 = data := by
    have heq : fernetPlain ts iv data =
        (128 :: (tsBytes ts ++ iv)) ++ data := by
      simp [fernetPlain]
    rw [heq, List.drop_left']
    simp [tsBytes, h16]
  have hfd : fernet_decrypt key (fernet_encrypt key ts iv data) =
      some data := by
    unfold fernet_decrypt
    rw [hparse]
    simp only [hsub, List.take_left, List.drop_left]
    rw [if_neg (by rw [hslen]; omega)]
    rw [if_neg (by simp [fernetPlain])]
    rw [if_neg (by simp)]
    rw [hdrop]
  unfold EncryptionManager.decrypt
  rw [if_neg (by rw [htoklen]; omega)]
  rw [if_neg (by
    intro hcon
    exact hcon (join_map_byteToHex_ascii
      (fernetPlain ts iv data ++ hmacModel key (fernetPlain ts iv data))))]
  rw [hfd]

/-- The concrete demonstration key, IV and plaintext for C4. -/
def demoIV : List ℕ := List.replicate 16 0

/-- The token produced for plaintext "hi" at timestamp 0. -/
def demoTok0 : List ℕ := fernet_encrypt 5 0 demoIV (strCodes "hi")

/-- The token produced for the same plaintext at timestamp 1. -/
def demoTok1 : List ℕ := fernet_encrypt 5 1 demoIV (strCodes "hi")

/-- C4 counterexample. `demoTok0` is a valid ciphertext — the wrapper
decrypts it to "hi" — but re-encrypting that plaintext at the next timestamp
(as the crate does with its fresh clock/IV draw) gives a different token
that still decrypts to "hi": `encrypt(decrypt(c)) = c` fails while
`decrypt(encrypt(decrypt(c)))` still recovers the plaintext. -/
theorem c4_encrypt_decrypt_not_inverse :
    (EncryptionManager.mk 5).decrypt demoTok0 = .ok (strCodes "hi") ∧
    (EncryptionManager.mk 5).encrypt 1 demoIV (strCodes "hi") = .ok demoTok1 ∧
    demoTok1 ≠ demoTok0 ∧
    (EncryptionManager.mk 5).decrypt demoTok1 = .ok (strCodes "hi") := by
  exact ⟨rfl, rfl, by decide, rfl⟩

/-- Witness for the amended C4 at the concrete key, timestamp, IV and
plaintext. -/
theorem c4_amended_decrypt_encrypt_witness :
    (EncryptionManager.mk 5).encrypt 0 demoIV (strCodes "hi") =
      .ok (fernet_encrypt 5 0 demoIV (strCodes "hi")) ∧
    (EncryptionManager.mk 5).decrypt (fernet_encrypt 5 0 demoIV (strCodes "hi")) =
      .ok (strCodes "hi") :=
  c4_amended_decrypt_encrypt 5 0 demoIV (strCodes "hi") (by decide)
    (by decide) (by decide)

/-! ## `view_generator.rs`: pattern → view confidence (claim C7)

`f64` values that pass through `ln` are modelled as `EReal`, so that IEEE
`ln(0) = -inf` is representable: `lnE 0 = ⊥`, and `⊥` propagates through the
subsequent `+`, `*`, `min` exactly as `-inf` does in IEEE arithmetic (for
the products below the coefficient is positive).  `lnE` of a negative input
is also `⊥` where IEEE gives NaN; a NaN reaching the final
`.max(0.0).min(1.0)` produces 0, the same final value as the `⊥` path, and
no theorem below evaluates `ln` on a negative input.  Division by the
positive constants 20, 10 and 30 is written as multiplication by their
inverses, which is exact on `ℝ`. -/

/-- `PatternType` from `pattern_detector.rs`. -/
inductive PatternType where
  | HighFrequency
  | Trend
  | Anomaly
  | Temporal
deriving DecidableEq, Repr

/-- `DetectedPattern` from `pattern_detector.rs` (fields not read by the
confidence calculation — metadata, `detected_at` — are omitted). -/
structure DetectedPattern where
  pattern_id : ℕ
  user_id : String
  description : String
  action : String
  target : String
  pattern_type : PatternType
  confidence : ℝ
  evidence_count : ℤ
  time_span_days : ℤ

/-- `ViewGeneratorConfig` from `view_generator.rs`. -/
structure ViewGeneratorConfig where
  default_expiration_days : ℤ
  high_frequency_confidence_multiplier : ℝ
  trend_confidence_multiplier : ℝ
  anomaly_confidence_multiplier : ℝ
  temporal_confidence_multiplier : ℝ
  min_confidence_threshold : ℝ

/-- `impl Default for ViewGeneratorConfig`. -/
noncomputable def ViewGeneratorConfig.default : ViewGeneratorConfig :=
  { default_expiration_days := 30
    high_frequency_confidence_multiplier := 1
    trend_confidence_multiplier := 9/10
    anomaly_confidence_multiplier := 8/10
    temporal_confidence_multiplier := 11/10
    min_confidence_threshold := 1/2 }

/-- IEEE `f64::ln` on extended reals: `-inf` at 0 (and at negative inputs,
standing in for NaN — see the section comment). -/
noncomputable def lnE (x : ℝ) : EReal :=
  if x ≤ 0 then ⊥ else ((Real.log x : ℝ) : EReal)

/-- `ViewGenerator::calculate_evidence_boost` (`view_generator.rs` lines
171–176): `1.0 + (count.ln() / 20.0).min(0.5)` — note no lower clamp. -/
noncomputable def calculate_evidence_boost (evidence_count : ℤ) : EReal :=
  1 + min (lnE (evidence_count : ℝ) * (((1:ℝ)/20 : ℝ) : EReal))
    (((1:ℝ)/2 : ℝ) : EReal)

/-- `ViewGenerator::calculate_time_span_boost` (`view_generator.rs` lines
179–185): `1.0 + (((days / 30.0).ln().max(0.0)) / 10.0).min(0.3)`. -/
noncomputable def calculate_time_span_boost (time_span_days : ℤ) : EReal :=
  1 + min ((max (lnE ((time_span_days : ℝ) * ((1:ℝ)/30))) 0) *
    (((1:ℝ)/10 : ℝ) : EReal)) (((3:ℝ)/10 : ℝ) : EReal)

/-- `ViewGenerator::calculate_confidence` (`view_generator.rs` lines
146–168): base times per-kind multiplier times the two boosts, clamped to
`[0, 1]` by `combined.max(0.0).min(1.0)`. -/
noncomputable def calculate_confidence (cfg : ViewGeneratorConfig)
    (pattern : DetectedPattern) : EReal :=
  min
    (max (((pattern.confidence : ℝ) : EReal) *
      ((match pattern.pattern_type with
        | .HighFrequency => cfg.high_frequency_confidence_multiplier
        | .Trend => cfg.trend_confidence_multiplier
        | .Anomaly => cfg.anomaly_confidence_multiplier
        | .Temporal => cfg.temporal_confidence_multiplier : ℝ) : EReal) *
      calculate_evidence_boost pattern.evidence_count *
      calculate_time_span_boost pattern.time_span_days) 0) 1

/-- The claim's formula, stated in its own words for comparison with
`calculate_confidence`: base confidence times the per-kind multiplier
(high-frequency 1.0, trend 0.9, anomaly 0.8, temporal 1.1), times
`1 + clamp(ln(evidence_count)/20, 0, 0.5)`, times
`1 + clamp(ln(span_days/30)/10, 0, 0.3)`, clamped to `[0,1]`, where
`clamp(x, lo, hi) = min(max(x, lo), hi)`. -/
noncomputable def spec_calculate_confidence (pattern : DetectedPattern) : EReal :=
  min
    (max (((pattern.confidence : ℝ) : EReal) *
      ((match pattern.pattern_type with
        | .HighFrequency => (1 : ℝ)
        | .Trend => (9/10 : ℝ)
        | .Anomaly => (8/10 : ℝ)
        | .Temporal => (11/10 : ℝ)) : EReal) *
      (1 + min (max (lnE (pattern.evidence_count : ℝ) *
        (((1:ℝ)/20 : ℝ) : EReal)) 0) (((1:ℝ)/2 : ℝ) : EReal)) *
      (1 + min (max (lnE ((pattern.time_span_days : ℝ) * ((1:ℝ)/30)) *
        (((1:ℝ)/10 : ℝ) : EReal)) 0) (((3:ℝ)/10 : ℝ) : EReal))) 0) 1

/-- `max` commutes with the real coercion into `EReal` (helper). -/
theorem ereal_coe_max (a b : ℝ) :
    max (a : EReal) (b : EReal) = ((max a b : ℝ) : EReal) := by
  rcases le_total a b with h | h
  · rw [max_eq_right (EReal.coe_le_coe_iff.2 h), max_eq_right h]
  · rw [max_eq_left (EReal.coe_le_coe_iff.2 h), max_eq_left h]

/-- `min` commutes with the real coercion into `EReal` (helper). -/
theorem ereal_coe_min (a b : ℝ) :
    min (a : EReal) (b : EReal) = ((min a b : ℝ) : EReal) := by
  rcases le_total a b with h | h
  · rw [min_eq_left (EReal.coe_le_coe_iff.2 h), min_eq_left h]
  · rw [min_eq_right (EReal.coe_le_coe_iff.2 h), min_eq_right h]

/-- `lnE` at a positive input is the real logarithm (helper). -/
theorem lnE_of_pos {x : ℝ} (h : 0 < x) :
    lnE x = ((Real.log x : ℝ) : EReal) := by
  rw [lnE, if_neg (not_le.2 h)]

/-- Coerced nonnegative reals are nonnegative in `EReal` (helper). -/
theorem ereal_coe_nonneg {x : ℝ} (h : 0 ≤ x) : (0 : EReal) ≤ (x : EReal) := by
  rw [← EReal.coe_zero]
  exact EReal.coe_le_coe_iff.2 h

/-- Coerced reals below one are at most one in `EReal` (helper). -/
theorem ereal_coe_le_one {x : ℝ} (h : x ≤ 1) : (x : EReal) ≤ 1 := by
  rw [← EReal.coe_one]
  exact EReal.coe_le_coe_iff.2 h

/-- The evidence boost agrees with the claim's clamped form whenever
`evidence_count ≥ 1` (helper): the logarithm is then nonnegative, so the
missing lower clamp does not matter. -/
theorem evidence_boost_eq_spec_of_pos {n : ℤ} (h : 1 ≤ n) :
    calculate_evidence_boost n =
      1 + min (max (lnE (n : ℝ) * (((1:ℝ)/20 : ℝ) : EReal)) 0)
        (((1:ℝ)/2 : ℝ) : EReal) := by
  have hn : (0 : ℝ) < (n : ℝ) := by exact_mod_cast h
  have hlog : 0 ≤ Real.log (n : ℝ) := Real.log_nonneg (by exact_mod_cast h)
  rw [calculate_evidence_boost, lnE_of_pos hn, ← EReal.coe_mul]
  rw [max_eq_left (by
    rw [← EReal.coe_zero, EReal.coe_le_coe_iff]
    positivity)]

/-- The time-span boost agrees with the claim's clamped form whenever
`time_span_days ≥ 0` (helper). -/
theorem time_span_boost_eq_spec_of_nonneg {d : ℤ} (h : 0 ≤ d) :
    calculate_time_span_boost d =
      1 + min (max (lnE ((d : ℝ) * ((1:ℝ)/30)) * (((1:ℝ)/10 : ℝ) : EReal)) 0)
        (((3:ℝ)/10 : ℝ) : EReal) := by
  rcases eq_or_lt_of_le h with h0 | h0
  · -- `d = 0`: both sides collapse to `1`
    rw [calculate_time_span_boost, ← h0]
    have hln : lnE (((0 : ℤ) : ℝ) * ((1:ℝ)/30)) = ⊥ := by
      rw [lnE, if_pos (by norm_num)]
    rw [hln]
    rw [max_eq_right bot_le, zero_mul]
    rw [EReal.bot_mul_coe_of_pos (by norm_num), max_eq_right bot_le]
  · -- `d ≥ 1`: push everything down to `ℝ`
    have hd : (0 : ℝ) < (d : ℝ) * ((1:ℝ)/30) := by
      have : (0 : ℝ) < (d : ℝ) := by exact_mod_cast h0
      positivity
    rw [calculate_time_span_boost, lnE_of_pos hd]
    rw [show ((0 : EReal)) = (((0:ℝ) : EReal)) by rw [EReal.coe_zero]]
    rw [ereal_coe_max, ← EReal.coe_mul, ← EReal.coe_mul, ereal_coe_max,
      ereal_coe_min, ereal_coe_min]
    congr 2
    rcases le_total (Real.log ((d : ℝ) * ((1:ℝ)/30))) 0 with hl | hl
    · rw [max_eq_right hl, max_eq_right (by linarith)]
      norm_num
    · rw [max_eq_left hl, max_eq_left (by positivity)]

/-- A high-frequency pattern with base confidence 0.7 but zero supporting
events over a 30-day span. -/
noncomputable def patternZeroEvidence : DetectedPattern :=
  { pattern_id := 1, user_id := "test_user", description := "每天 喝 咖啡",
    action := "喝", target := "咖啡", pattern_type := PatternType.HighFrequency,
    confidence := 7/10, evidence_count := 0, time_span_days := 30 }

/-- C7 counterexample. At `evidence_count = 0` the code's evidence factor is
`1 + ln(0)/20 = -inf` — there is no lower clamp in
`calculate_evidence_boost` — so the final clamped confidence is 0, whereas
the claim's formula (`1 + clamp(ln(0)/20, 0, 0.5) = 1`) yields
`0.7 · 1.0 · 1 · 1 = 0.7`. -/
theorem c7_zero_evidence_confidence_collapses :
    calculate_confidence ViewGeneratorConfig.default patternZeroEvidence = 0 ∧
    spec_calculate_confidence patternZeroEvidence = ((7/10 : ℝ) : EReal) ∧
    (0 : EReal) ≠ ((7/10 : ℝ) : EReal) := by
  have hln0 : lnE (((0 : ℤ) : ℝ)) = ⊥ := by rw [lnE, if_pos (by norm_num)]
  have hln1 : lnE (((30 : ℤ) : ℝ) * ((1:ℝ)/30)) = ((0:ℝ) : EReal) := by
    rw [lnE_of_pos (by norm_num)]
    norm_num
  have hcoe0 : (((0:ℝ)) : EReal) = (0 : EReal) := EReal.coe_zero
  have htsb : calculate_time_span_boost 30 = 1 := by
    rw [calculate_time_span_boost]
    rw [show ((((30:ℤ) : ℝ)) * ((1:ℝ)/30)) = (((30:ℤ) : ℝ) * ((1:ℝ)/30)) from
      rfl, hln1, hcoe0]
    rw [max_eq_left le_rfl, zero_mul]
    rw [min_eq_left (ereal_coe_nonneg (by norm_num))]
    rw [add_zero]
  refine ⟨?_, ?_, ?_⟩
  · have hboost : calculate_evidence_boost (0 : ℤ) = ⊥ := by
      rw [calculate_evidence_boost, hln0]
      rw [EReal.bot_mul_coe_of_pos (by norm_num)]
      rw [min_eq_left bot_le, EReal.add_bot]
    rw [calculate_confidence]
    show min (max (((7/10 : ℝ) : EReal) * (((1:ℝ) : ℝ) : EReal) *
      calculate_evidence_boost (0 : ℤ) * calculate_time_span_boost 30) 0) 1 = 0
    rw [hboost, htsb, mul_one, ← EReal.coe_mul]
    rw [EReal.coe_mul_bot_of_pos (by norm_num)]
    rw [max_eq_right bot_le]
    rw [min_eq_left (le_trans (le_of_eq hcoe0.symm)
      (ereal_coe_le_one (by norm_num)))]
  · have hb1 : (1 + min (max (lnE (((0:ℤ) : ℝ)) * (((1:ℝ)/20 : ℝ) : EReal)) 0)
        (((1:ℝ)/2 : ℝ) : EReal) : EReal) = 1 := by
      rw [hln0, EReal.bot_mul_coe_of_pos (by norm_num), max_eq_right bot_le]
      rw [min_eq_left (ereal_coe_nonneg (by norm_num)), add_zero]
    have ht1 : (1 + min (max (lnE (((30:ℤ) : ℝ) * ((1:ℝ)/30)) *
        (((1:ℝ)/10 : ℝ) : EReal)) 0) (((3:ℝ)/10 : ℝ) : EReal) : EReal) = 1 := by
      rw [hln1, ← EReal.coe_mul]
      rw [show ((0:ℝ) * ((1:ℝ)/10)) = (0:ℝ) by ring, hcoe0]
      rw [max_eq_left le_rfl, min_eq_left (ereal_coe_nonneg (by norm_num))]
      rw [add_zero]
    rw [spec_calculate_confidence]
    show min (max (((7/10 : ℝ) : EReal) * (((1:ℝ)) : EReal) *
      (1 + min (max (lnE (((0:ℤ) : ℝ)) * (((1:ℝ)/20 : ℝ) : EReal)) 0)
        (((1:ℝ)/2 : ℝ) : EReal)) *
      (1 + min (max (lnE (((30:ℤ) : ℝ) * ((1:ℝ)/30)) *
        (((1:ℝ)/10 : ℝ) : EReal)) 0) (((3:ℝ)/10 : ℝ) : EReal))) 0) 1 =
      ((7/10 : ℝ) : EReal)
    rw [hb1, ht1, mul_one, mul_one, ← EReal.coe_mul]
    rw [max_eq_left (ereal_coe_nonneg (by norm_num))]
    rw [min_eq_left (ereal_coe_le_one (by norm_num))]
    norm_num
  · rw [← EReal.coe_zero, ne_eq, EReal.coe_eq_coe_iff]
    norm_num

/-- C7 amended. For every pattern with `evidence_count ≥ 1` and a nonnegative
time span, the generated confidence under the default configuration equals
the claim's formula exactly; the claim fails only at `evidence_count = 0`,
where the code's unclamped `ln` collapses the confidence to 0. -/
theorem c7_amended_confidence_formula (p : DetectedPattern)
    (he : 1 ≤ p.evidence_count) (hd : 0 ≤ p.time_span_days) :
    calculate_confidence ViewGeneratorConfig.default p =
      spec_calculate_confidence p := by
  rw [calculate_confidence, spec_calculate_confidence,
    evidence_boost_eq_spec_of_pos he, time_span_boost_eq_spec_of_nonneg hd]
  cases p.pattern_type <;> rfl

/-- A high-frequency pattern identical to `patternZeroEvidence` except with
one supporting event. -/
noncomputable def patternOneEvidence : DetectedPattern :=
  { patternZeroEvidence with evidence_count := 1 }

/-- Witness for the amended C7 at a concrete pattern with one supporting
event over 30 days. -/
theorem c7_amended_confidence_formula_witness :
    calculate_confidence ViewGeneratorConfig.default patternOneEvidence =
      spec_calculate_confidence patternOneEvidence :=
  c7_amended_confidence_formula patternOneEvidence (by norm_num [patternOneEvidence, patternZeroEvidence])
    (by norm_num [patternOneEvidence, patternZeroEvidence])

end Dirsoul
